import Mathlib

/-! # Verification of `agentnet/environment/session_pool.py`

Shallow embedding of the `SessionPoolEnvironment` class (the experience-replay
session pool).  Arrays are modelled as nested lists:

* an observation / action channel is `List (List cell)` — pool axis, then time
  axis, with an abstract cell type standing for the trailing per-tick shape;
* `rewards` and `is_alive` are `List (List cell)` — pool axis, time axis;
* a preceding-memory channel is `List cell` — pool axis only (no time axis);
* a pool groups the channel lists, the channel axis being the outer `List`.

Theano shared variables are modelled by the structure fields holding their
current values.  Python `assert` failures (the channel-count checks), a numpy
`IndexError`, and a Python `UnboundLocalError` (reading a never-assigned local
variable) are modelled as values of `PoolError`.  The dtype casts performed by
the repository utility `set_shared` (not among the sources at hand; modelled
from the spec: "Replaces each stream wholesale with the supplied array, cast to
that stream's fixed dtype") are explicit cast functions, one per stream group,
passed as fixed parameters.  `check_list` is the identity here because every
argument is already a list.
-/

namespace SessionPool

/-- Failure modes of the pool operations: the spec's `ChannelCountMismatch`
(Python `AssertionError` from the `assert len(...) == len(...)` checks), the
spec's `IndexOutOfRange` (numpy/theano `IndexError`), and a Python
`UnboundLocalError` (a local variable read before any assignment). -/
inductive PoolError where
  | channelCountMismatch
  | indexOutOfRange
  | unboundLocal
  deriving DecidableEq

/-- The mutable storage of `SessionPoolEnvironment`: the current values of the
shared variables `self.observations`, `self.actions`, `self.rewards`,
`self.is_alive` and `self.preceding_agent_memories`. -/
structure PoolState (α β γ ρ ι : Type) where
  observations : List (List (List α))
  actions : List (List (List β))
  rewards : List (List ρ)
  is_alive : List (List ι)
  preceding_agent_memories : List (List γ)
  deriving DecidableEq

/-- The result of `select_session_batch` / `sample_session_batch`: the
arguments handed to the `SessionBatchEnvironment` constructor (a snapshot of
the gathered rows). -/
structure SessionBatch (α β γ ρ ι : Type) where
  observations : List (List (List α))
  actions : List (List (List β))
  rewards : List (List ρ)
  is_alive : List (List ι)
  prev_memories : List (List γ)
  deriving DecidableEq

variable {α β γ ρ ι : Type}

/-- `self.pool_size = self.rewards.shape[0]` — a symbolic shape expression,
hence always the pool extent of the current rewards array. -/
def pool_size (s : PoolState α β γ ρ ι) : Nat := s.rewards.length

/-- `self.batch_size = self.pool_size` (both are assigned the same shape
expression in `__init__`). -/
def batch_size (s : PoolState α β γ ρ ι) : Nat := pool_size s

/-- `self.sequence_length = self.rewards.shape[1]`. -/
def sequence_length (s : PoolState α β γ ρ ι) : Nat := (s.rewards.headD []).length

/-- The parallel-array invariant: every stream has pool extent `pool_size` and
every time axis has extent `sequence_length`.  (`pool_size` and
`sequence_length` are read off the rewards array, so the rewards conjunct only
constrains the time axes.) -/
def PoolState.wellFormed (s : PoolState α β γ ρ ι) : Prop :=
  (∀ ch ∈ s.observations, ch.length = pool_size s ∧
    ∀ row ∈ ch, row.length = sequence_length s) ∧
  (∀ ch ∈ s.actions, ch.length = pool_size s ∧
    ∀ row ∈ ch, row.length = sequence_length s) ∧
  (∀ row ∈ s.rewards, row.length = sequence_length s) ∧
  (s.is_alive.length = pool_size s ∧ ∀ row ∈ s.is_alive, row.length = sequence_length s) ∧
  (∀ ch ∈ s.preceding_agent_memories, ch.length = pool_size s)

instance (s : PoolState α β γ ρ ι) : Decidable s.wellFormed := by
  unfold PoolState.wellFormed
  infer_instance

/-- `__init__` with integer channel counts: observations start as
`np.zeros([10, 5, 2])` per channel (cell = a length-2 vector), actions as
`np.zeros([10, 5])`, rewards as `np.zeros([10, 5])`, preceding memories as
`np.zeros([10, 5])` per channel (pool axis 10, a length-5 memory vector per
row), and `is_alive` as `np.ones([10, 5])`.  The template-object branch (layer
shapes/dtypes) is outside this embedding. -/
def initPool (observations actions agent_memories : Nat) :
    PoolState (List Int) Int (List Int) Int Int :=
  { observations := List.replicate observations
      (List.replicate 10 (List.replicate 5 (List.replicate 2 (0 : Int))))
    actions := List.replicate actions (List.replicate 10 (List.replicate 5 (0 : Int)))
    rewards := List.replicate 10 (List.replicate 5 (0 : Int))
    is_alive := List.replicate 10 (List.replicate 5 (1 : Int))
    preceding_agent_memories := List.replicate agent_memories
      (List.replicate 10 (List.replicate 5 (0 : Int))) }

/-- `self.padded_observations`: each observation channel with one extra
all-zero tick concatenated at the end of the time axis
(`T.concatenate([obs, T.zeros_like(insert_dim(obs[:, 0], 1))], axis=1)`). -/
def padded_observations [Zero α] (s : PoolState α β γ ρ ι) : List (List (List α)) :=
  s.observations.map (fun obs => obs.map (fun row => row ++ [(0 : α)]))

/-- Sequencing of fallible elementwise computations, stopping at the first
error (the evaluation of a numpy gather, which raises at the first bad index —
all indexing errors here are `indexOutOfRange` anyway). -/
def mapExcept {σ τ : Type} (f : σ → Except PoolError τ) : List σ → Except PoolError (List τ)
  | [] => .ok []
  | x :: xs =>
    match f x with
    | .error e => .error e
    | .ok y =>
      match mapExcept f xs with
      | .error e => .error e
      | .ok ys => .ok (y :: ys)

/-- numpy integer row indexing: a nonnegative index selects directly, a
negative index `i` with `-len ≤ i` wraps to `len + i`, anything else raises
`IndexError`. -/
def npIndex {τ : Type} (xs : List τ) (i : Int) : Except PoolError τ :=
  let j : Int := if i < 0 then i + xs.length else i
  if 0 ≤ j then
    match xs[j.toNat]? with
    | some v => .ok v
    | none => .error .indexOutOfRange
  else .error .indexOutOfRange

/-- numpy fancy indexing `xs[selector]` along the pool axis. -/
def npGather {τ : Type} (xs : List τ) (selector : List Int) : Except PoolError (List τ) :=
  mapExcept (npIndex xs) selector

/-- `get_action_results(last_states, actions)`: takes
`time_i = check_list(last_states)[0]`, forms `batch_range =
T.arange(time_i.shape[0])`, and returns `([time_i + 1],
[obs[batch_range, time_i + 1] for obs in self.padded_observations])`.
The `actions` argument is ignored by the source. -/
def get_action_results [Zero α] (s : PoolState α β γ ρ ι)
    (last_states : List (List Nat)) (actions : List Nat) :
    Except PoolError (List (List Nat) × List (List α)) :=
  match last_states with
  | [] => .error .indexOutOfRange
  | time_i :: _ =>
    let batch_range := List.range time_i.length
    match mapExcept (fun ch =>
        mapExcept (fun bt : Nat × Nat =>
          match ch[bt.1]? with
          | some row =>
            match row[bt.2 + 1]? with
            | some v => .ok v
            | none => .error .indexOutOfRange
          | none => .error .indexOutOfRange)
          (batch_range.zip time_i))
        (padded_observations s) with
    | .ok new_observations => .ok ([time_i.map (fun t => t + 1)], new_observations)
    | .error e => .error e

/-- The memory-channel-count check of `load_sessions` / `append_sessions` /
`get_session_updates`: performed only when `prev_memories is not None`. -/
def memCountBad (prev_memories : Option (List (List γ))) (n : Nat) : Bool :=
  match prev_memories with
  | some pm => pm.length != n
  | none => false

/-- `load_sessions(observation_sequences, action_sequences, reward_seq,
is_alive, prev_memories)`: asserts the channel counts, then replaces each
stream wholesale via `set_shared` (each write cast to the stream's fixed
dtype, here the explicit casts `cO`/`cA`/`cM`/`cR`/`cL`).  An omitted
(`none`) `is_alive` or `prev_memories` leaves that stream untouched. -/
def load_sessions (cO : α → α) (cA : β → β) (cM : γ → γ) (cR : ρ → ρ) (cL : ι → ι)
    (s : PoolState α β γ ρ ι)
    (observation_sequences : List (List (List α)))
    (action_sequences : List (List (List β)))
    (reward_seq : List (List ρ))
    (is_alive : Option (List (List ι)))
    (prev_memories : Option (List (List γ))) :
    Except PoolError (PoolState α β γ ρ ι) :=
  if observation_sequences.length ≠ s.observations.length then .error .channelCountMismatch
  else if action_sequences.length ≠ s.actions.length then .error .channelCountMismatch
  else if memCountBad prev_memories s.preceding_agent_memories.length then
    .error .channelCountMismatch
  else .ok
    { observations := observation_sequences.map (fun ch => ch.map (fun row => row.map cO))
      actions := action_sequences.map (fun ch => ch.map (fun row => row.map cA))
      rewards := reward_seq.map (fun row => row.map cR)
      is_alive := match is_alive with
        | some ia => ia.map (fun row => row.map cL)
        | none => s.is_alive
      preceding_agent_memories := match prev_memories with
        | some pm => pm.map (fun ch => ch.map cM)
        | none => s.preceding_agent_memories }

/-- `append_sessions(...)`: asserts the channel counts, concatenates every
supplied stream onto the existing one along the pool axis, optionally crops to
`max_pool_size`, then calls `load_sessions`.  Two behaviours of the source are
reproduced exactly:

* the crop branch reads the locals `observation_tensor` / `action_tensor`
  (singular) which are never assigned — the defined locals are the plural
  `observation_tensors` / `action_tensors` — so entering it raises
  `UnboundLocalError` at `observation_tensor[-max_pool_size:]`
  (and `new_size = len(observation_tensors[0])` raises `IndexError` when there
  are no observation channels);
* the final `self.load_sessions(..., is_alive_tensor, preceding_memory_states)`
  reads locals that are only assigned when `is_alive` / `prev_memories` were
  given, so omitting either raises `UnboundLocalError` before the load runs. -/
def append_sessions (cO : α → α) (cA : β → β) (cM : γ → γ) (cR : ρ → ρ) (cL : ι → ι)
    (s : PoolState α β γ ρ ι)
    (observation_sequences : List (List (List α)))
    (action_sequences : List (List (List β)))
    (reward_seq : List (List ρ))
    (is_alive : Option (List (List ι)))
    (prev_memories : Option (List (List γ)))
    (max_pool_size : Option Nat) :
    Except PoolError (PoolState α β γ ρ ι) :=
  if observation_sequences.length ≠ s.observations.length then .error .channelCountMismatch
  else if action_sequences.length ≠ s.actions.length then .error .channelCountMismatch
  else if memCountBad prev_memories s.preceding_agent_memories.length then
    .error .channelCountMismatch
  else
    let observation_tensors :=
      List.zipWith (fun old new => old ++ new) s.observations observation_sequences
    let action_tensors :=
      List.zipWith (fun old new => old ++ new) s.actions action_sequences
    let reward_tensor := s.rewards ++ reward_seq
    let commit : Except PoolError (PoolState α β γ ρ ι) :=
      match is_alive, prev_memories with
      | some ia, some pm =>
        load_sessions cO cA cM cR cL s observation_tensors action_tensors reward_tensor
          (some (s.is_alive ++ ia))
          (some (List.zipWith (fun old new => old ++ new) s.preceding_agent_memories pm))
      | _, _ => .error .unboundLocal
    match max_pool_size with
    | none => commit
    | some mps =>
      match observation_tensors with
      | [] => .error .indexOutOfRange
      | first :: _ => if first.length > mps then .error .unboundLocal else commit

/-- `select_session_batch(selector)`: gathers the rows of every observation,
action and preceding-memory channel, of the rewards and of `is_alive` at the
given indices (numpy fancy indexing), and packages them as the arguments of
the `SessionBatchEnvironment` constructor. -/
def select_session_batch (s : PoolState α β γ ρ ι) (selector : List Int) :
    Except PoolError (SessionBatch α β γ ρ ι) :=
  match mapExcept (fun ch => npGather ch selector) s.observations with
  | .error e => .error e
  | .ok selected_observations =>
    match mapExcept (fun ch => npGather ch selector) s.actions with
    | .error e => .error e
    | .ok selected_actions =>
      match mapExcept (fun ch => npGather ch selector) s.preceding_agent_memories with
      | .error e => .error e
      | .ok selected_prev_memories =>
        match npGather s.rewards selector with
        | .error e => .error e
        | .ok selected_rewards =>
          match npGather s.is_alive selector with
          | .error e => .error e
          | .ok selected_is_alive =>
            .ok { observations := selected_observations
                  actions := selected_actions
                  rewards := selected_rewards
                  is_alive := selected_is_alive
                  prev_memories := selected_prev_memories }

/-- Insertion of `x` into a list ordered by the key `key` (helper for the
random-permutation model below). -/
def insertByKey (key : Nat → Nat) (x : Nat) : List Nat → List Nat
  | [] => [x]
  | y :: ys => if key x ≤ key y then x :: y :: ys else y :: insertByKey key x ys

/-- Insertion sort by the key `key` (helper for the random-permutation model
below). -/
def sortByKey (key : Nat → Nat) : List Nat → List Nat
  | [] => []
  | x :: xs => insertByKey key x (sortByKey key xs)

/-- Modelled from the numpy/theano contract of
`RandomStreams.choice(size=(k,), a=a, replace=replace)` (the random source is
external library state, not repository code): with replacement, `k`
independent draws from `[0, a)`; without replacement, the first `k` entries of
a random permutation of `[0, a)`.  The random state is an abstract draw
function `rng`; the permutation is `range a` ordered by the key `rng`. -/
def rng_choice (rng : Nat → Nat) (k a : Nat) (replace : Bool) : List Nat :=
  if replace then (List.range k).map (fun i => rng i % a)
  else (sortByKey rng (List.range a)).take k

/-- `sample_session_batch(max_n_samples, replace)`: with replacement draws
`max_n_samples` indices, otherwise `min(max_n_samples, pool_size)` indices
without repetition, and delegates to `select_session_batch`. -/
def sample_session_batch (s : PoolState α β γ ρ ι)
    (max_n_samples : Nat) (replace : Bool) (rng : Nat → Nat) :
    Except PoolError (SessionBatch α β γ ρ ι) :=
  let n_samples := if replace then max_n_samples else min max_n_samples (pool_size s)
  let sample_ids := rng_choice rng n_samples (pool_size s) replace
  select_session_batch s (sample_ids.map (fun i => (i : Int)))

/-- A small concrete pool used in witnesses and counterexamples: one
observation channel, one action channel, one memory channel, two trajectories,
sequence length 1. -/
def pool2 : PoolState Int Int Int Int Int :=
  { observations := [[[10], [20]]]
    actions := [[[5], [6]]]
    rewards := [[1], [2]]
    is_alive := [[1], [1]]
    preceding_agent_memories := [[0, 0]] }

/-- C6: a `load_sessions` call whose channel counts agree with the pool's and
which supplies `is_alive` and `prev_memories` replaces every stream with
exactly the supplied arrays, each cast elementwise to the stream's fixed
dtype, so reading every stream afterwards returns exactly the input (cast). -/
theorem load_sessions_roundtrip (cO : α → α) (cA : β → β) (cM : γ → γ) (cR : ρ → ρ)
    (cL : ι → ι) (s : PoolState α β γ ρ ι)
    (obs : List (List (List α))) (act : List (List (List β))) (rwd : List (List ρ))
    (ia : List (List ι)) (pm : List (List γ))
    (hobs : obs.length = s.observations.length)
    (hact : act.length = s.actions.length)
    (hpm : pm.length = s.preceding_agent_memories.length) :
    load_sessions cO cA cM cR cL s obs act rwd (some ia) (some pm) =
      .ok { observations := obs.map (fun ch => ch.map (fun row => row.map cO))
            actions := act.map (fun ch => ch.map (fun row => row.map cA))
            rewards := rwd.map (fun row => row.map cR)
            is_alive := ia.map (fun row => row.map cL)
            preceding_agent_memories := pm.map (fun ch => ch.map cM) } := by
  simp [load_sessions, hobs, hact, memCountBad, hpm]

/-- Witness for C6 at a concrete input. -/
theorem load_sessions_roundtrip_witness :
    load_sessions id id id id id pool2 [[[7], [8]]] [[[3], [4]]] [[5], [6]]
        (some [[1], [0]]) (some [[2, 3]]) =
      .ok { observations := [[[7], [8]]]
            actions := [[[3], [4]]]
            rewards := [[5], [6]]
            is_alive := [[1], [0]]
            preceding_agent_memories := [[2, 3]] } :=
  load_sessions_roundtrip id id id id id pool2 _ _ _ _ _ rfl rfl rfl

/-- C2 counterexample: a `load_sessions` call whose channel counts are right
but whose arrays have inconsistent pool extents (3-row observations and
actions against 2-row rewards) does not fail — it commits all streams,
leaving observations with 3 rows and rewards with 2.  The claim says such a
call fails with `ShapeMismatch`. -/
theorem load_sessions_shape_mismatch_accepted :
    load_sessions id id id id id pool2 [[[7], [8], [9]]] [[[3], [4], [5]]] [[1], [2]]
        none none =
      .ok { observations := [[[7], [8], [9]]]
            actions := [[[3], [4], [5]]]
            rewards := [[1], [2]]
            is_alive := [[1], [1]]
            preceding_agent_memories := [[0, 0]] } := rfl

/-- C2 amended: `load_sessions` performs no shape validation at all — every
call whose channel counts agree succeeds wholesale, whatever the array shapes.
(Its only failure mode is the channel-count assertion, raised before any
stream is written; see `channel_count_mismatch_spec`.) -/
theorem load_sessions_no_shape_validation (cO : α → α) (cA : β → β) (cM : γ → γ)
    (cR : ρ → ρ) (cL : ι → ι) (s : PoolState α β γ ρ ι)
    (obs : List (List (List α))) (act : List (List (List β))) (rwd : List (List ρ))
    (ia : Option (List (List ι))) (pm : Option (List (List γ)))
    (hobs : obs.length = s.observations.length)
    (hact : act.length = s.actions.length)
    (hpm : ∀ p, pm = some p → p.length = s.preceding_agent_memories.length) :
    ∃ s2, load_sessions cO cA cM cR cL s obs act rwd ia pm = .ok s2 := by
  cases pm with
  | none => simp [load_sessions, hobs, hact, memCountBad]
  | some p => simp [load_sessions, hobs, hact, memCountBad, hpm p rfl]

/-- Witness for the C2 amended theorem: a shape-inconsistent but
channel-count-correct load succeeds. -/
theorem load_sessions_no_shape_validation_witness :
    ∃ s2, load_sessions id id id id id pool2 [[[7], [8], [9]]] [[[3], [4], [5]]]
      [[1], [2]] none none = .ok s2 :=
  load_sessions_no_shape_validation id id id id id pool2 _ _ _ _ _ rfl rfl
    (fun p hp => nomatch hp)

/-- C7: whenever the number of supplied observation, action, or (when given)
memory arrays disagrees with the pool's fixed channel counts, both
`load_sessions` and `append_sessions` fail with the channel-count assertion —
which precedes every stream write, so the storage is unchanged. -/
theorem channel_count_mismatch_spec (cO : α → α) (cA : β → β) (cM : γ → γ)
    (cR : ρ → ρ) (cL : ι → ι) (s : PoolState α β γ ρ ι)
    (obs : List (List (List α))) (act : List (List (List β))) (rwd : List (List ρ))
    (ia : Option (List (List ι))) (pm : Option (List (List γ))) (mps : Option Nat)
    (h : obs.length ≠ s.observations.length ∨ act.length ≠ s.actions.length ∨
      ∃ p, pm = some p ∧ p.length ≠ s.preceding_agent_memories.length) :
    load_sessions cO cA cM cR cL s obs act rwd ia pm = .error .channelCountMismatch ∧
    append_sessions cO cA cM cR cL s obs act rwd ia pm mps =
      .error .channelCountMismatch := by
  by_cases h1 : obs.length = s.observations.length
  · by_cases h2 : act.length = s.actions.length
    · have h3 : ∃ p, pm = some p ∧ p.length ≠ s.preceding_agent_memories.length := by
        rcases h with h | h | h
        · exact absurd h1 h
        · exact absurd h2 h
        · exact h
      obtain ⟨p, rfl, hlen⟩ := h3
      constructor <;> simp [load_sessions, append_sessions, h1, h2, memCountBad, hlen]
    · constructor <;> simp [load_sessions, append_sessions, h1, h2]
  · constructor <;> simp [load_sessions, append_sessions, h1]

/-- Witness for C7 at a concrete input (zero observation arrays supplied to a
one-observation-channel pool). -/
theorem channel_count_mismatch_spec_witness :
    load_sessions id id id id id pool2 [] [] [[1], [2]] none none =
      .error .channelCountMismatch ∧
    append_sessions id id id id id pool2 [] [] [[1], [2]] none none none =
      .error .channelCountMismatch :=
  channel_count_mismatch_spec id id id id id pool2 _ _ _ _ _ _ (Or.inl (by decide))

/-- C8 counterexample: immediately after construction the `is_alive` stream is
`np.ones([10, 5])` — one-filled, not zero-filled as the claim states. -/
theorem init_is_alive_not_zero :
    (initPool 1 1 1).is_alive = List.replicate 10 (List.replicate 5 (1 : Int)) ∧
    (initPool 1 1 1).is_alive ≠ List.replicate 10 (List.replicate 5 (0 : Int)) := by
  decide

/-- C8 amended: immediately after construction the observation, action, reward
and preceding-memory streams hold zero-filled placeholder arrays of the
default shapes (`[10, 5, 2]`, `[10, 5]`, `[10, 5]`, `[10, 5]`), while the
liveness stream holds a ONE-filled `[10, 5]` placeholder. -/
theorem init_placeholder_spec (n m k : Nat) :
    (initPool n m k).observations = List.replicate n
      (List.replicate 10 (List.replicate 5 (List.replicate 2 (0 : Int)))) ∧
    (initPool n m k).actions = List.replicate m
      (List.replicate 10 (List.replicate 5 (0 : Int))) ∧
    (initPool n m k).rewards = List.replicate 10 (List.replicate 5 (0 : Int)) ∧
    (initPool n m k).preceding_agent_memories = List.replicate k
      (List.replicate 10 (List.replicate 5 (0 : Int))) ∧
    (initPool n m k).is_alive = List.replicate 10 (List.replicate 5 (1 : Int)) :=
  ⟨rfl, rfl, rfl, rfl, rfl⟩

/-- C9: after any successful `load_sessions` (hence also after the load an
`append_sessions` commits through) `batch_size` and `pool_size` coincide and
equal the pool extent of the rewards array that was just stored, and
`sequence_length` equals its time extent — both are read off the current
rewards array's shape, not stored separately. -/
theorem derived_shape_spec (cO : α → α) (cA : β → β) (cM : γ → γ) (cR : ρ → ρ)
    (cL : ι → ι) (s : PoolState α β γ ρ ι)
    (obs : List (List (List α))) (act : List (List (List β))) (rwd : List (List ρ))
    (ia : Option (List (List ι))) (pm : Option (List (List γ)))
    (s2 : PoolState α β γ ρ ι)
    (h : load_sessions cO cA cM cR cL s obs act rwd ia pm = .ok s2) :
    batch_size s2 = pool_size s2 ∧ pool_size s2 = rwd.length ∧
      sequence_length s2 = (rwd.headD []).length := by
  unfold load_sessions at h
  split_ifs at h
  injection h with h
  subst h
  refine ⟨rfl, by simp [pool_size], ?_⟩
  cases rwd with
  | nil => simp [sequence_length]
  | cons r rs => simp [sequence_length]

/-- Witness for C9 at a concrete load. -/
theorem derived_shape_spec_witness :
    batch_size (PoolState.mk [[[7], [8]]] [[[3], [4]]] [[5], [6]] [[1], [1]] [[0], [0]]) =
      pool_size (PoolState.mk [[[7], [8]]] [[[3], [4]]] [[5], [6]] [[1], [1]] [[0], [0]]) ∧
    pool_size (PoolState.mk [[[7], [8]]] [[[3], [4]]] [[5], [6]] [[1], [1]] [[0], [0]]) =
      [[(5 : Int)], [6]].length ∧
    sequence_length (PoolState.mk [[[7], [8]]] [[[3], [4]]] [[5], [6]] [[1], [1]] [[0], [0]]) =
      ([[(5 : Int)], [6]].headD []).length :=
  derived_shape_spec id id id id id pool2 [[[7], [8]]] [[[3], [4]]] [[5], [6]]
    none none _ rfl

/-- C10: an `append_sessions` call that omits `is_alive` or `prev_memories`
(and passes the channel-count assertions, on a pool with at least one
observation channel) fails with `UnboundLocalError`: the final
`self.load_sessions(..., is_alive_tensor, preceding_memory_states)` reads a
local that was never assigned.  The failure happens while evaluating the
arguments of the internal load, so no stream is written. -/
theorem append_sessions_missing_optional_unbound (cO : α → α) (cA : β → β)
    (cM : γ → γ) (cR : ρ → ρ) (cL : ι → ι) (s : PoolState α β γ ρ ι)
    (obs : List (List (List α))) (act : List (List (List β))) (rwd : List (List ρ))
    (ia : Option (List (List ι))) (pm : Option (List (List γ))) (mps : Option Nat)
    (hobs : obs.length = s.observations.length)
    (hact : act.length = s.actions.length)
    (hpm : ∀ p, pm = some p → p.length = s.preceding_agent_memories.length)
    (hne : s.observations ≠ [])
    (hmiss : ia = none ∨ pm = none) :
    append_sessions cO cA cM cR cL s obs act rwd ia pm mps = .error .unboundLocal := by
  obtain ⟨so, sa, sr, si, sm⟩ := s
  cases so with
  | nil => exact absurd rfl hne
  | cons o os =>
    cases obs with
    | nil => simp at hobs
    | cons b bs =>
      have hm : memCountBad pm sm.length = false := by
        cases pm with
        | none => rfl
        | some p => simp [memCountBad, hpm p rfl]
      have hcommit : ∀ oT aT rT,
          (match ia, pm with
            | some ia2, some pm2 =>
              load_sessions cO cA cM cR cL ⟨o :: os, sa, sr, si, sm⟩ oT aT rT
                (some (si ++ ia2))
                (some (List.zipWith (fun old new => old ++ new) sm pm2))
            | _, _ => (.error .unboundLocal :
                Except PoolError (PoolState α β γ ρ ι))) = .error .unboundLocal := by
        intro oT aT rT
        rcases hmiss with rfl | rfl
        · cases pm <;> rfl
        · cases ia <;> rfl
      unfold append_sessions
      rw [if_neg (by simp [hobs]), if_neg (by simp [hact]), if_neg (by simp [hm])]
      cases mps with
      | none => exact hcommit _ _ _
      | some m =>
        simp only [List.zipWith_cons_cons]
        by_cases hc : (o ++ b).length > m
        · rw [if_pos hc]
        · rw [if_neg hc]
          exact hcommit _ _ _

/-- Witness for C10 at a concrete input (both optionals omitted). -/
theorem append_sessions_missing_optional_unbound_witness :
    append_sessions id id id id id pool2 [[[7]]] [[[8]]] [[9]] none none none =
      .error .unboundLocal :=
  append_sessions_missing_optional_unbound id id id id id pool2 _ _ _ _ _ _
    rfl rfl (fun p hp => nomatch hp) (by decide) (Or.inl rfl)

/-- C1: when `max_pool_size` is given and the concatenated pool would exceed
it, `append_sessions` does not truncate-and-commit: the crop branch reads the
never-assigned local `observation_tensor` (the assigned name is the plural
`observation_tensors`), so the call dies with `UnboundLocalError` — even when
every optional stream is supplied.  `ch` is the first concatenated
observation channel, whose length is the `new_size` the source compares
against `max_pool_size`. -/
theorem append_sessions_crop_unbound_local (cO : α → α) (cA : β → β) (cM : γ → γ)
    (cR : ρ → ρ) (cL : ι → ι) (s : PoolState α β γ ρ ι)
    (obs : List (List (List α))) (act : List (List (List β))) (rwd : List (List ρ))
    (ia : Option (List (List ι))) (pm : Option (List (List γ)))
    (mps : Nat) (ch : List (List α)) (rest : List (List (List α)))
    (hobs : obs.length = s.observations.length)
    (hact : act.length = s.actions.length)
    (hpm : ∀ p, pm = some p → p.length = s.preceding_agent_memories.length)
    (hzip : List.zipWith (fun old new => old ++ new) s.observations obs = ch :: rest)
    (hsz : ch.length > mps) :
    append_sessions cO cA cM cR cL s obs act rwd ia pm (some mps) =
      .error .unboundLocal := by
  have hm : memCountBad pm s.preceding_agent_memories.length = false := by
    cases pm with
    | none => rfl
    | some p => simp [memCountBad, hpm p rfl]
  unfold append_sessions
  rw [if_neg (by simp [hobs]), if_neg (by simp [hact]), if_neg (by simp [hm])]
  simp only [hzip]
  rw [if_pos hsz]

/-- Witness for C1: appending one trajectory to the two already in `pool2`
with `max_pool_size = 2` (so `new_size = 3 > 2`) raises the undefined-local
error instead of evicting the oldest row. -/
theorem append_sessions_crop_unbound_local_witness :
    append_sessions id id id id id pool2 [[[7]]] [[[8]]] [[9]]
        (some [[1]]) (some [[3]]) (some 2) = .error .unboundLocal :=
  append_sessions_crop_unbound_local id id id id id pool2 _ _ _ _ _ 2
    [[10], [20], [7]] [] rfl rfl (fun p hp => by cases hp; rfl)
    rfl (by decide)

theorem mapExcept_ok_of_forall {σ τ : Type} (f : σ → Except PoolError τ) (g : σ → τ) :
    ∀ l : List σ, (∀ x ∈ l, f x = .ok (g x)) → mapExcept f l = .ok (l.map g) := by
  intro l h
  induction l with
  | nil => rfl
  | cons x xs ih =>
    have hx := h x (List.mem_cons_self x xs)
    have hxs := ih (fun y hy => h y (List.mem_cons_of_mem x hy))
    simp [mapExcept, hx, hxs]

theorem mapExcept_ok_forall {σ τ : Type} (f : σ → Except PoolError τ) :
    ∀ (l : List σ) (ys : List τ), mapExcept f l = .ok ys → ∀ x ∈ l, ∃ y, f x = .ok y := by
  intro l
  induction l with
  | nil => intro ys h x hx; exact absurd hx (List.not_mem_nil x)
  | cons z zs ih =>
    intro ys h x hx
    cases hfz : f z with
    | error e => rw [mapExcept, hfz] at h; exact absurd h (by simp)
    | ok y =>
      cases hrest : mapExcept f zs with
      | error e => rw [mapExcept, hfz, hrest] at h; exact absurd h (by simp)
      | ok ys2 =>
        rcases List.mem_cons.mp hx with rfl | hx2
        · exact ⟨y, hfz⟩
        · exact ih ys2 hrest x hx2

theorem mapExcept_error_imp {σ τ : Type} (f : σ → Except PoolError τ) :
    ∀ (l : List σ) (e : PoolError), mapExcept f l = .error e → ∃ x ∈ l, f x = .error e := by
  intro l
  induction l with
  | nil => intro e h; exact absurd h (by simp [mapExcept])
  | cons z zs ih =>
    intro e h
    cases hfz : f z with
    | error e2 =>
      rw [mapExcept, hfz] at h
      exact ⟨z, List.mem_cons_self z zs, hfz.trans (by injection h with h; rw [h])⟩
    | ok y =>
      cases hrest : mapExcept f zs with
      | error e2 =>
        rw [mapExcept, hfz, hrest] at h
        obtain ⟨x, hx, hfx⟩ := ih e2 hrest
        injection h with h
        exact ⟨x, List.mem_cons_of_mem z hx, by rw [hfx, h]⟩
      | ok ys2 => rw [mapExcept, hfz, hrest] at h; exact absurd h (by simp)

theorem mapExcept_ok_or_error {σ τ : Type} (f : σ → Except PoolError τ) (l : List σ)
    (h : ∀ x ∈ l, ∀ e, f x = .error e → e = .indexOutOfRange) :
    (∃ ys, mapExcept f l = .ok ys) ∨ mapExcept f l = .error .indexOutOfRange := by
  cases hres : mapExcept f l with
  | ok ys => exact Or.inl ⟨ys, rfl⟩
  | error e =>
    obtain ⟨x, hx, hfx⟩ := mapExcept_error_imp f l e hres
    have he : e = .indexOutOfRange := h x hx e hfx
    subst he
    exact Or.inr rfl

theorem npIndex_ok {τ : Type} (xs : List τ) (i : Int) (d : τ)
    (h0 : 0 ≤ i) (h1 : i < (xs.length : Int)) :
    npIndex xs i = .ok (xs.getD i.toNat d) := by
  have hneg : ¬ i < 0 := not_lt.mpr h0
  have hlt : i.toNat < xs.length := by omega
  simp only [npIndex, if_neg hneg, if_pos h0, List.getElem?_eq_getElem hlt,
    List.getD_eq_getElem xs d hlt]

theorem npIndex_error_bad {τ : Type} (xs : List τ) (i : Int)
    (h : i < -((xs.length : Nat) : Int) ∨ ((xs.length : Nat) : Int) ≤ i) :
    npIndex xs i = .error .indexOutOfRange := by
  rcases h with h | h
  · have h0 : i < 0 := by omega
    have hj : ¬ (0 ≤ i + ((xs.length : Nat) : Int)) := by omega
    simp only [npIndex, if_pos h0, if_neg hj]
  · have h0 : ¬ i < 0 := by omega
    have hnone : xs[i.toNat]? = none := by
      rw [List.getElem?_eq_none_iff]
      omega
    simp only [npIndex, if_neg h0, if_pos (by omega : (0 : Int) ≤ i), hnone]

theorem npIndex_error_imp {τ : Type} (xs : List τ) (i : Int) (e : PoolError) :
    npIndex xs i = .error e → e = .indexOutOfRange := by
  intro h
  simp only [npIndex] at h
  split at h
  all_goals try split at h
  all_goals try split at h
  all_goals first
    | exact (Except.error.inj h).symm
    | exact absurd h (by simp)

theorem npGather_ok {τ : Type} (xs : List τ) (sel : List Int) (d : τ)
    (h : ∀ i ∈ sel, 0 ≤ i ∧ i < (xs.length : Int)) :
    npGather xs sel = .ok (sel.map (fun i => xs.getD i.toNat d)) :=
  mapExcept_ok_of_forall _ _ sel (fun i hi => npIndex_ok xs i d (h i hi).1 (h i hi).2)

theorem npGather_error {τ : Type} (xs : List τ) (sel : List Int)
    (h : ∃ i ∈ sel, i < -((xs.length : Nat) : Int) ∨ ((xs.length : Nat) : Int) ≤ i) :
    npGather xs sel = .error .indexOutOfRange := by
  obtain ⟨i, hi, hbad⟩ := h
  rcases mapExcept_ok_or_error (npIndex xs) sel
      (fun x _ e he => npIndex_error_imp xs x e he) with ⟨ys, hok⟩ | herr
  · obtain ⟨y, hy⟩ := mapExcept_ok_forall _ sel ys hok i hi
    rw [npIndex_error_bad xs i hbad] at hy
    exact absurd hy (by simp)
  · exact herr

theorem npGather_error_imp {τ : Type} (xs : List τ) (sel : List Int) (e : PoolError) :
    npGather xs sel = .error e → e = .indexOutOfRange := by
  intro h
  obtain ⟨x, _, hfx⟩ := mapExcept_error_imp _ sel e h
  exact npIndex_error_imp xs x e hfx

/-- C5 counterexample: `select_session_batch` with the index `-1` — outside
`[0, pool_size)` — does not fail: numpy fancy indexing wraps negative indices,
so it returns the LAST row of every stream.  The claim says any index outside
`[0, pool_size)` fails with `IndexOutOfRange`. -/
theorem select_negative_index_wraps :
    select_session_batch pool2 [-1] =
      .ok { observations := [[[20]]]
            actions := [[[6]]]
            rewards := [[2]]
            is_alive := [[1]]
            prev_memories := [[0]] } := rfl

/-- C5 amended: for a well-formed pool, `select_session_batch` at indices in
`[0, pool_size)` returns, for every observation/action/memory channel plus
rewards and liveness, the rows gathered in the given order (duplicates
allowed, so `select [i, i, j]` duplicates row `i`); an index in
`[-pool_size, 0)` wraps numpy-style to the end instead of failing; the call
fails with `IndexOutOfRange` exactly when some index falls outside
`[-pool_size, pool_size)`. -/
theorem select_session_batch_spec [Inhabited γ] (s : PoolState α β γ ρ ι)
    (sel : List Int) (hwf : s.wellFormed) :
    ((∀ i ∈ sel, 0 ≤ i ∧ i < (pool_size s : Int)) →
      select_session_batch s sel = .ok
        { observations := s.observations.map
            (fun ch => sel.map (fun i => ch.getD i.toNat []))
          actions := s.actions.map (fun ch => sel.map (fun i => ch.getD i.toNat []))
          rewards := sel.map (fun i => s.rewards.getD i.toNat [])
          is_alive := sel.map (fun i => s.is_alive.getD i.toNat [])
          prev_memories := s.preceding_agent_memories.map
            (fun ch => sel.map (fun i => ch.getD i.toNat default)) }) ∧
    ((∃ i ∈ sel, i < -((pool_size s : Nat) : Int) ∨ ((pool_size s : Nat) : Int) ≤ i) →
      select_session_batch s sel = .error .indexOutOfRange) := by
  obtain ⟨hwfo, hwfa, _, hwfl, hwfm⟩ := hwf
  constructor
  · intro h
    have hobs : mapExcept (fun ch => npGather ch sel) s.observations =
        .ok (s.observations.map (fun ch => sel.map (fun i => ch.getD i.toNat []))) :=
      mapExcept_ok_of_forall _ _ _ (fun ch hch => npGather_ok ch sel []
        (fun i hi => ⟨(h i hi).1, by rw [(hwfo ch hch).1]; exact (h i hi).2⟩))
    have hact : mapExcept (fun ch => npGather ch sel) s.actions =
        .ok (s.actions.map (fun ch => sel.map (fun i => ch.getD i.toNat []))) :=
      mapExcept_ok_of_forall _ _ _ (fun ch hch => npGather_ok ch sel []
        (fun i hi => ⟨(h i hi).1, by rw [(hwfa ch hch).1]; exact (h i hi).2⟩))
    have hmem : mapExcept (fun ch => npGather ch sel) s.preceding_agent_memories =
        .ok (s.preceding_agent_memories.map
          (fun ch => sel.map (fun i => ch.getD i.toNat default))) :=
      mapExcept_ok_of_forall _ _ _ (fun ch hch => npGather_ok ch sel default
        (fun i hi => ⟨(h i hi).1, by rw [hwfm ch hch]; exact (h i hi).2⟩))
    have hrwd : npGather s.rewards sel =
        .ok (sel.map (fun i => s.rewards.getD i.toNat [])) :=
      npGather_ok s.rewards sel [] (fun i hi => (h i hi))
    have hia : npGather s.is_alive sel =
        .ok (sel.map (fun i => s.is_alive.getD i.toNat [])) :=
      npGather_ok s.is_alive sel []
        (fun i hi => ⟨(h i hi).1, by rw [hwfl.1]; exact (h i hi).2⟩)
    simp [select_session_batch, hobs, hact, hmem, hrwd, hia]
  · intro h
    have hrwd : npGather s.rewards sel = .error .indexOutOfRange :=
      npGather_error s.rewards sel h
    rcases mapExcept_ok_or_error (fun ch => npGather ch sel) s.observations
        (fun ch _ e he => npGather_error_imp ch sel e he) with ⟨ys1, h1⟩ | h1
    · rcases mapExcept_ok_or_error (fun ch => npGather ch sel) s.actions
          (fun ch _ e he => npGather_error_imp ch sel e he) with ⟨ys2, h2⟩ | h2
      · rcases mapExcept_ok_or_error (fun ch => npGather ch sel) s.preceding_agent_memories
            (fun ch _ e he => npGather_error_imp ch sel e he) with ⟨ys3, h3⟩ | h3
        · simp [select_session_batch, h1, h2, h3, hrwd]
        · simp [select_session_batch, h1, h2, h3]
      · simp [select_session_batch, h1, h2]
    · simp [select_session_batch, h1]

/-- Witness for the C5 amended theorem: `select [0, 0, 1]` on `pool2`
duplicates row 0 and appends row 1, in order, for every stream. -/
theorem select_session_batch_spec_witness :
    select_session_batch pool2 [0, 0, 1] =
      .ok { observations := [[[10], [10], [20]]]
            actions := [[[5], [5], [6]]]
            rewards := [[1], [1], [2]]
            is_alive := [[1], [1], [1]]
            prev_memories := [[0, 0, 0]] } :=
  (select_session_batch_spec pool2 [0, 0, 1] (by decide)).1 (by decide)

theorem padded_cell [Zero α] (s : PoolState α β γ ρ ι) (hwf : s.wellFormed)
    (chO : List (List α)) (hch : chO ∈ s.observations) (b : Nat)
    (hb : b < pool_size s) :
    (∀ t, t < sequence_length s →
      ((chO.map (fun row => row ++ [(0 : α)])).getD b []).getD t 0 =
        (chO.getD b []).getD t 0) ∧
    ((chO.map (fun row => row ++ [(0 : α)])).getD b []).getD (sequence_length s) 0 = 0 := by
  have hlen : chO.length = pool_size s := (hwf.1 chO hch).1
  have hb2 : b < chO.length := by rw [hlen]; exact hb
  have hpadrow : (chO.map (fun row => row ++ [(0 : α)])).getD b [] =
      chO.getD b [] ++ [(0 : α)] := by
    rw [List.getD_eq_getElem _ _ (by simpa using hb2), List.getElem_map,
      List.getD_eq_getElem _ _ hb2]
  have hrowmem : chO.getD b [] ∈ chO := by
    rw [List.getD_eq_getElem _ _ hb2]
    exact List.getElem_mem hb2
  have hrowlen : (chO.getD b []).length = sequence_length s :=
    (hwf.1 chO hch).2 _ hrowmem
  constructor
  · intro t ht
    rw [hpadrow, List.getD_append _ _ _ t (by rw [hrowlen]; exact ht)]
  · rw [hpadrow,
      List.getD_append_right _ _ _ _ (show (chO.getD b []).length ≤ sequence_length s from
        le_of_eq hrowlen)]
    simp [hrowlen]

/-- C4: for a well-formed pool, the padded observation view agrees with the
raw stream at every tick `t < sequence_length` and is zero at tick
`sequence_length`; `get_action_results` at a per-trajectory time vector
returns the incremented times as the new state together with, for every
channel, the padded observations at `time + 1` (ignoring its `actions`
argument); and at uniform time `sequence_length - 1` it returns time
`sequence_length` and an all-zero observation row for every channel, with no
out-of-range failure. -/
theorem padded_step_spec [Zero α] (s : PoolState α β γ ρ ι) (hwf : s.wellFormed) :
    (∀ c b t, c < s.observations.length → b < pool_size s →
      (t < sequence_length s →
        (((padded_observations s).getD c []).getD b []).getD t 0 =
          ((s.observations.getD c []).getD b []).getD t 0) ∧
      (((padded_observations s).getD c []).getD b []).getD (sequence_length s) 0 = 0) ∧
    (∀ (time_i acts acts2 : List Nat),
      time_i.length ≤ pool_size s →
      (∀ t ∈ time_i, t + 1 ≤ sequence_length s) →
      get_action_results s [time_i] acts =
        .ok ([time_i.map (fun t => t + 1)],
          (padded_observations s).map (fun ch =>
            ((List.range time_i.length).zip time_i).map
              (fun bt => (ch.getD bt.1 []).getD (bt.2 + 1) 0))) ∧
      get_action_results s [time_i] acts = get_action_results s [time_i] acts2) ∧
    (0 < sequence_length s →
      get_action_results s [List.replicate (pool_size s) (sequence_length s - 1)] [] =
        .ok ([List.replicate (pool_size s) (sequence_length s)],
          s.observations.map (fun _ => List.replicate (pool_size s) (0 : α)))) := by
  have hstep : ∀ (time_i acts : List Nat),
      time_i.length ≤ pool_size s →
      (∀ t ∈ time_i, t + 1 ≤ sequence_length s) →
      get_action_results s [time_i] acts =
        .ok ([time_i.map (fun t => t + 1)],
          (padded_observations s).map (fun ch =>
            ((List.range time_i.length).zip time_i).map
              (fun bt => (ch.getD bt.1 []).getD (bt.2 + 1) 0))) := by
    intro time_i acts hlen htk
    have hmain : mapExcept (fun ch =>
        mapExcept (fun bt : Nat × Nat =>
          match ch[bt.1]? with
          | some row =>
            match row[bt.2 + 1]? with
            | some v => .ok v
            | none => .error .indexOutOfRange
          | none => .error .indexOutOfRange)
          ((List.range time_i.length).zip time_i))
        (padded_observations s) =
        .ok ((padded_observations s).map (fun ch =>
          ((List.range time_i.length).zip time_i).map
            (fun bt => (ch.getD bt.1 []).getD (bt.2 + 1) 0))) := by
      refine mapExcept_ok_of_forall _ _ _ (fun ch hch => ?_)
      refine mapExcept_ok_of_forall _ _ _ (fun bt hbt => ?_)
      obtain ⟨b, t⟩ := bt
      obtain ⟨hbr, htm⟩ := List.of_mem_zip hbt
      have hb : b < time_i.length := List.mem_range.mp hbr
      obtain ⟨chO, hchO, rfl⟩ := List.mem_map.mp hch
      have hchlen : chO.length = pool_size s := (hwf.1 chO hchO).1
      have hb2 : b < chO.length := by omega
      have hsome : (chO.map (fun row => row ++ [(0 : α)]))[b]? =
          some (chO[b] ++ [(0 : α)]) := by
        rw [List.getElem?_map, List.getElem?_eq_getElem hb2]
        rfl
      have hrowlen : chO[b].length = sequence_length s :=
        (hwf.1 chO hchO).2 _ (List.getElem_mem hb2)
      have ht : t + 1 ≤ sequence_length s := htk t htm
      have htlt : t + 1 < (chO[b] ++ [(0 : α)]).length := by
        simp [hrowlen]
        omega
      have hsome2 : (chO[b] ++ [(0 : α)])[t + 1]? =
          some ((chO[b] ++ [(0 : α)])[t + 1]) := List.getElem?_eq_getElem htlt
      have hgetd : (chO.map (fun row => row ++ [(0 : α)])).getD b [] =
          chO[b] ++ [(0 : α)] := by
        rw [List.getD_eq_getElem _ _
            (show b < (chO.map (fun row => row ++ [(0 : α)])).length by simpa using hb2),
          List.getElem_map]
      simp only [hsome, hsome2]
      congr 1
      rw [hgetd, List.getD_eq_getElem _ _ htlt]
    simp [get_action_results, hmain]
  refine ⟨?_, fun time_i acts acts2 hlen htk => ⟨hstep time_i acts hlen htk, rfl⟩, ?_⟩
  · intro c b t hc hb
    have hch : s.observations.getD c [] ∈ s.observations := by
      rw [List.getD_eq_getElem _ _ hc]
      exact List.getElem_mem hc
    have hpch : (padded_observations s).getD c [] =
        (s.observations.getD c []).map (fun row => row ++ [(0 : α)]) := by
      unfold padded_observations
      rw [List.getD_eq_getElem _ _ (by simpa using hc), List.getElem_map,
        List.getD_eq_getElem _ _ hc]
    have hcell := padded_cell s hwf _ hch b hb
    rw [hpch]
    exact ⟨fun ht => hcell.1 t ht, hcell.2⟩
  · intro hT
    have h := hstep (List.replicate (pool_size s) (sequence_length s - 1)) []
      (by simp) (by intro t htm; rw [List.eq_of_mem_replicate htm]; omega)
    have haux : ∀ (l : List Nat) (c : Nat),
        l.zip (List.replicate l.length c) = l.map (fun b => (b, c)) := by
      intro l c
      induction l with
      | nil => rfl
      | cons x xs ih => simpa [List.replicate_succ] using ih
    have hzip : (List.range (List.replicate (pool_size s) (sequence_length s - 1)).length).zip
        (List.replicate (pool_size s) (sequence_length s - 1)) =
        (List.range (pool_size s)).map (fun b => (b, sequence_length s - 1)) := by
      rw [List.length_replicate]
      have h2 := haux (List.range (pool_size s)) (sequence_length s - 1)
      rw [List.length_range] at h2
      exact h2
    have hfst : (List.replicate (pool_size s) (sequence_length s - 1)).map
        (fun t => t + 1) = List.replicate (pool_size s) (sequence_length s) := by
      rw [List.map_replicate]
      congr 1
      omega
    have hsnd : (padded_observations s).map (fun ch =>
        ((List.range (pool_size s)).map (fun b => (b, sequence_length s - 1))).map
          (fun bt => (ch.getD bt.1 []).getD (bt.2 + 1) 0)) =
        s.observations.map (fun _ => List.replicate (pool_size s) (0 : α)) := by
      unfold padded_observations
      rw [List.map_map]
      refine List.map_congr_left (fun chO hchO => ?_)
      simp only [Function.comp_apply]
      rw [List.map_map]
      refine List.eq_replicate.mpr ⟨by simp, fun v hv => ?_⟩
      obtain ⟨b, hbr, rfl⟩ := List.mem_map.mp hv
      have hb : b < pool_size s := List.mem_range.mp hbr
      have hcell := (padded_cell s hwf chO hchO b hb).2
      simp only [Function.comp_apply]
      have hT1 : sequence_length s - 1 + 1 = sequence_length s := by omega
      rw [hT1]
      exact hcell
    rw [h, hzip, hfst, hsnd]

/-- Witness for C4 on `pool2` (`sequence_length = 1`): stepping at time 0
returns time 1 and an all-zero observation row, with no index error. -/
theorem padded_step_spec_witness :
    pool2.wellFormed ∧
    get_action_results pool2 [[0, 0]] [] = .ok ([[1, 1]], [[0, 0]]) := by
  refine ⟨by decide, ?_⟩
  have h := ((padded_step_spec pool2 (by decide)).2.2 (by decide))
  simpa using h

theorem insertByKey_perm (key : Nat → Nat) (x : Nat) :
    ∀ l : List Nat, (insertByKey key x l).Perm (x :: l) := by
  intro l
  induction l with
  | nil => exact List.Perm.refl _
  | cons y ys ih =>
    unfold insertByKey
    by_cases h : key x ≤ key y
    · rw [if_pos h]
    · rw [if_neg h]
      exact (List.Perm.cons y ih).trans (List.Perm.swap x y ys)

theorem sortByKey_perm (key : Nat → Nat) :
    ∀ l : List Nat, (sortByKey key l).Perm l := by
  intro l
  induction l with
  | nil => exact List.Perm.refl _
  | cons x xs ih =>
    exact (insertByKey_perm key x (sortByKey key xs)).trans (List.Perm.cons x ih)

/-- C3: the sampler.  Without replacement it draws exactly
`min(max_n_samples, pool_size)` pairwise-distinct indices, all in
`[0, pool_size)` (the prefix of the rng-ordered permutation of the pool
indices), and returns exactly the batch `select_session_batch` produces at
those indices; with replacement it draws exactly `max_n_samples` indices, all
in `[0, pool_size)`, repetition allowed, and again returns the selection at
them. -/
theorem sample_session_batch_spec (s : PoolState α β γ ρ ι) (M : Nat)
    (rng : Nat → Nat) (hpos : 0 < pool_size s) :
    ((rng_choice rng (min M (pool_size s)) (pool_size s) false).length =
        min M (pool_size s) ∧
      (rng_choice rng (min M (pool_size s)) (pool_size s) false).Nodup ∧
      (∀ i ∈ rng_choice rng (min M (pool_size s)) (pool_size s) false,
        i < pool_size s) ∧
      sample_session_batch s M false rng = select_session_batch s
        ((rng_choice rng (min M (pool_size s)) (pool_size s) false).map
          (fun i => (i : Int)))) ∧
    ((rng_choice rng M (pool_size s) true).length = M ∧
      (∀ i ∈ rng_choice rng M (pool_size s) true, i < pool_size s) ∧
      sample_session_batch s M true rng = select_session_batch s
        ((rng_choice rng M (pool_size s) true).map (fun i => (i : Int)))) := by
  have hsortlen : (sortByKey rng (List.range (pool_size s))).length = pool_size s := by
    rw [(sortByKey_perm rng (List.range (pool_size s))).length_eq, List.length_range]
  have hsortnodup : (sortByKey rng (List.range (pool_size s))).Nodup :=
    (sortByKey_perm rng (List.range (pool_size s))).symm.nodup
      (List.nodup_range (pool_size s))
  refine ⟨⟨?_, ?_, ?_, rfl⟩, ⟨?_, ?_, rfl⟩⟩
  · simp only [rng_choice, if_neg (by simp : ¬ (false : Bool) = true)]
    rw [List.length_take, hsortlen]
    omega
  · simp only [rng_choice, if_neg (by simp : ¬ (false : Bool) = true)]
    exact (List.take_sublist _ _).nodup hsortnodup
  · intro i hi
    simp only [rng_choice, if_neg (by simp : ¬ (false : Bool) = true)] at hi
    have hmem : i ∈ sortByKey rng (List.range (pool_size s)) :=
      (List.take_sublist _ _).subset hi
    have hrange : i ∈ List.range (pool_size s) :=
      (sortByKey_perm rng (List.range (pool_size s))).mem_iff.mp hmem
    exact List.mem_range.mp hrange
  · simp [rng_choice]
  · intro i hi
    simp only [rng_choice, if_pos rfl] at hi
    obtain ⟨j, _, rfl⟩ := List.mem_map.mp hi
    exact Nat.mod_lt _ hpos

/-- Witness for C3 at a concrete pool and rng. -/
theorem sample_session_batch_spec_witness :
    0 < pool_size pool2 ∧
    sample_session_batch pool2 1 false id = select_session_batch pool2
      ((rng_choice id (min 1 (pool_size pool2)) (pool_size pool2) false).map
        (fun i => (i : Int))) :=
  ⟨by decide, ((sample_session_batch_spec pool2 1 id (by decide)).1).2.2.2⟩

end SessionPool
